import Mathlib

/-!
Verification of the core logic of a Mastermind game implementation
(`project.py`): secret-code generation, guess scoring, feedback
formatting, and the click-driven game-session state machine of the
Tkinter GUI.  Randomness is modelled by an explicit stream of draws,
UI drawing calls are elided (they do not touch game state), and
Python exceptions are modelled with `Except String`.
-/

namespace Mastermind

/-- The six palette colors (hex strings), the source's `COLORS` constant. -/
def COLORS : List String :=
  ["#38ffff", "#ff6a00", "#ccf300", "#ff5e9c", "#5a7af5", "#b277ff"]

/-- The source's `CODE_LENGTH = 4`. -/
def CODE_LENGTH : Nat := 4

/-- The source's `MAX_TRIES = 10`. -/
def MAX_TRIES : Nat := 10

variable {α : Type} [DecidableEq α]

/-- `random.choice(colors)`: returns the element at a random index of
`colors`, and raises `IndexError` when `colors` is empty.  The random
draw is supplied as the natural number `r`, reduced mod the list length
(every index is reachable this way, and `r % 0 = r` makes the lookup
fail exactly on the empty list). -/
def random_choice (colors : List α) (r : Nat) : Except String α :=
  match colors[r % colors.length]? with
  | some c => .ok c
  | none => .error "IndexError: cannot choose from an empty sequence"

/-- The comprehension `[random.choice(colors) for _ in range(length)]`
unrolled: draw number `i` is `rand i`, and `n` draws remain. -/
def generate_code_from (colors : List α) (rand : Nat → Nat) : Nat → Nat → Except String (List α)
  | _, 0 => .ok []
  | i, n + 1 =>
    match random_choice colors (rand i) with
    | .error e => .error e
    | .ok c =>
      match generate_code_from colors rand (i + 1) n with
      | .error e => .error e
      | .ok rest => .ok (c :: rest)

/-- `generate_code(colors, length)`: body is
`[random.choice(colors) for _ in range(length)]`.  The Python function
performs no argument validation of its own. -/
def generate_code (colors : List α) (length : Nat) (rand : Nat → Nat) :
    Except String (List α) :=
  generate_code_from colors rand 0 length

/-- `black = sum(s == g for s, g in zip(secret, guess))` from `check_guess`. -/
def blackCount (secret guess : List α) : Nat :=
  (secret.zip guess).countP fun p => decide (p.1 = p.2)

/-- `total_matches = sum(min(secret.count(c), guess.count(c)) for c in set(guess))`
from `check_guess`; `set(guess)` is the distinct values of `guess`. -/
def totalMatches (secret guess : List α) : Nat :=
  (guess.dedup.map fun c => min (secret.count c) (guess.count c)).sum

/-- `check_guess(secret, guess)`: raises `ValueError` on a length
mismatch, otherwise returns `(black, white)` with
`white = total_matches - black` (Python integers, hence `Int`). -/
def check_guess (secret guess : List α) : Except String (Int × Int) :=
  if secret.length ≠ guess.length then
    .error "Secret and guess must be same length"
  else
    .ok ((blackCount secret guess : Int),
      (totalMatches secret guess : Int) - (blackCount secret guess : Int))

/-- `format_feedback(black, white, length)`: validates the counts and
returns `["black"]*black + ["white"]*white + ["empty"]*(length-black-white)`. -/
def format_feedback (black white : Int) (length : Int) : Except String (List String) :=
  if black < 0 ∨ white < 0 ∨ black + white > length then
    .error "Invalid black/white counts"
  else
    .ok (List.replicate black.toNat "black" ++ List.replicate white.toNat "white"
      ++ List.replicate (length - black - white).toNat "empty")

/-- One attempt row of the GUI board: the peg slots (`guess_state`,
`None` = still empty) and the `solved` flag. -/
structure Row where
  guess_state : List (Option String)
  solved : Bool
deriving DecidableEq

/-- The game-relevant state of `MastermindGUI`: the secret code, the
0-based current attempt index, the attempt rows and the `game_over` flag. -/
structure GameState where
  secret : List String
  current_try : Nat
  rows : List Row
  game_over : Bool
deriving DecidableEq

/-- Which dialog a palette click triggers: none (`contIn`),
`_reveal_win` (`won`) or `_reveal_loss` (`lost`). -/
inductive ClickOutcome where
  | contIn : ClickOutcome
  | won : ClickOutcome
  | lost : ClickOutcome
deriving DecidableEq

/-- `row["guess_state"].index(None)` followed by
`row["guess_state"][pos] = color`: fill the first empty slot, or `none`
when the row is already full (the `ValueError` from `.index` is caught
and the click ignored). -/
def fillFirst : List (Option String) → String → Option (List (Option String))
  | [], _ => none
  | none :: rest, c => some (some c :: rest)
  | some x :: rest, c => Option.map (fun l => some x :: l) (fillFirst rest c)

/-- `MastermindGUI._palette_click(color)`: ignore the click when the
game is over or the current row is full; otherwise fill the next empty
peg; when the row becomes full, score it, format the feedback, and
either mark the row solved and end the game (win), advance past the
last row and end the game (loss), or just advance to the next row. -/
def palette_click (st : GameState) (color : String) :
    Except String (GameState × ClickOutcome) :=
  if st.game_over then .ok (st, .contIn)
  else
    match st.rows[st.current_try]? with
    | none => .error "IndexError: list index out of range"
    | some row =>
      match fillFirst row.guess_state color with
      | none => .ok (st, .contIn)
      | some newGuess =>
        if newGuess.contains none then
          .ok ({ st with
            rows := st.rows.set st.current_try { row with guess_state := newGuess } },
            .contIn)
        else
          match check_guess st.secret newGuess.reduceOption with
          | .error e => .error e
          | .ok (black, white) =>
            match format_feedback black white (CODE_LENGTH : Int) with
            | .error e => .error e
            | .ok _fb =>
              if black = (CODE_LENGTH : Int) then
                .ok ({ st with
                  rows := (st.rows.set st.current_try
                      { row with guess_state := newGuess }).set st.current_try
                    { guess_state := newGuess, solved := true },
                  game_over := true }, .won)
              else if st.current_try + 1 ≥ MAX_TRIES then
                .ok ({ st with
                  rows := st.rows.set st.current_try { row with guess_state := newGuess },
                  current_try := st.current_try + 1,
                  game_over := true }, .lost)
              else
                .ok ({ st with
                  rows := st.rows.set st.current_try { row with guess_state := newGuess },
                  current_try := st.current_try + 1 }, .contIn)

/-- Spec-side formulation of exact matches: the number of indices `i`
with `secret[i] == guess[i]`. -/
def specExactMatches (secret guess : List α) : Nat :=
  (List.range secret.length).countP fun i => decide (secret[i]? = guess[i]?)

/-- Spec-side formulation of the color-match total: the sum, over every
distinct color value appearing in `guess`, of
`min(count of that color in secret, count of that color in guess)`. -/
def specColorTotal (secret guess : List α) : Nat :=
  ∑ c ∈ guess.toFinset, min (secret.count c) (guess.count c)

/-- A concrete one-row session one peg away from a winning guess. -/
def winBefore : GameState :=
  { secret := ["#38ffff", "#38ffff", "#38ffff", "#38ffff"],
    current_try := 0,
    rows := [{ guess_state := [some "#38ffff", some "#38ffff", some "#38ffff", none],
               solved := false }],
    game_over := false }

/-- The session `winBefore` after the winning click. -/
def winAfter : GameState :=
  { secret := ["#38ffff", "#38ffff", "#38ffff", "#38ffff"],
    current_try := 0,
    rows := [{ guess_state := [some "#38ffff", some "#38ffff", some "#38ffff", some "#38ffff"],
               solved := true }],
    game_over := true }

/-- An all-empty attempt row. -/
def blankRow : Row := { guess_state := [none, none, none, none], solved := false }

/-- A concrete session on its last attempt (index `MAX_TRIES - 1 = 9`), one
peg away from completing a non-matching guess. -/
def loseBefore : GameState :=
  { secret := ["#38ffff", "#38ffff", "#38ffff", "#38ffff"],
    current_try := 9,
    rows := List.replicate 9 blankRow ++
      [{ guess_state := [some "#ff6a00", some "#ff6a00", some "#ff6a00", none],
         solved := false }],
    game_over := false }

/-- The session `loseBefore` after the losing click. -/
def loseAfter : GameState :=
  { secret := ["#38ffff", "#38ffff", "#38ffff", "#38ffff"],
    current_try := 10,
    rows := List.replicate 9 blankRow ++
      [{ guess_state := [some "#ff6a00", some "#ff6a00", some "#ff6a00", some "#ff6a00"],
         solved := false }],
    game_over := true }

instance {ε β : Type} [DecidableEq ε] [DecidableEq β] : DecidableEq (Except ε β)
  | .error a, .error b =>
    if h : a = b then isTrue (by rw [h]) else isFalse (fun hh => h (by cases hh; rfl))
  | .error _, .ok _ => isFalse (fun hh => Except.noConfusion hh)
  | .ok _, .error _ => isFalse (fun hh => Except.noConfusion hh)
  | .ok a, .ok b =>
    if h : a = b then isTrue (by rw [h]) else isFalse (fun hh => h (by cases hh; rfl))

lemma toFinset_dedup_list (g : List α) : g.dedup.toFinset = g.toFinset := by
  ext a
  simp [List.mem_toFinset, List.mem_dedup]

lemma totalMatches_eq_sum_toFinset (s g : List α) :
    totalMatches s g = ∑ c ∈ g.toFinset, min (s.count c) (g.count c) := by
  rw [totalMatches, ← List.sum_toFinset _ (List.nodup_dedup g), toFinset_dedup_list]

lemma totalMatches_eq_card_inter (s g : List α) :
    totalMatches s g = Multiset.card ((s : Multiset α) ∩ (g : Multiset α)) := by
  rw [totalMatches_eq_sum_toFinset]
  have hsub : ∀ a ∈ (s : Multiset α) ∩ (g : Multiset α), a ∈ g.toFinset := by
    intro a ha
    have hg : a ∈ (g : Multiset α) :=
      Multiset.mem_of_le (Multiset.inter_le_right _ _) ha
    simpa [List.mem_toFinset] using hg
  rw [← Multiset.sum_count_eq_card hsub]
  refine Finset.sum_congr rfl fun c _ => ?_
  rw [Multiset.count_inter, Multiset.coe_count, Multiset.coe_count]

lemma totalMatches_le_length (s g : List α) : totalMatches s g ≤ g.length := by
  rw [totalMatches_eq_card_inter]
  have h := Multiset.card_le_card (Multiset.inter_le_right (s : Multiset α) (g : Multiset α))
  simpa using h

lemma totalMatches_comm (s g : List α) : totalMatches s g = totalMatches g s := by
  rw [totalMatches_eq_card_inter, totalMatches_eq_card_inter, Multiset.inter_comm]

lemma blackCount_le_totalMatches (s g : List α) (h : s.length = g.length) :
    blackCount s g ≤ totalMatches s g := by
  classical
  have hlen : blackCount s g =
      (((s.zip g).filter fun p => decide (p.1 = p.2)).map Prod.fst).length := by
    rw [List.length_map, blackCount, List.countP_eq_length_filter]
  have hsubs : List.Sublist (((s.zip g).filter fun p => decide (p.1 = p.2)).map Prod.fst) s := by
    have h1 : List.Sublist ((s.zip g).filter fun p => decide (p.1 = p.2)) (s.zip g) :=
      List.filter_sublist _
    have h2 := h1.map Prod.fst
    rwa [List.map_fst_zip _ _ (le_of_eq h)] at h2
  have hsubg : List.Sublist (((s.zip g).filter fun p => decide (p.1 = p.2)).map Prod.fst) g := by
    have h1 : List.Sublist ((s.zip g).filter fun p => decide (p.1 = p.2)) (s.zip g) :=
      List.filter_sublist _
    have hmapeq : (((s.zip g).filter fun p => decide (p.1 = p.2)).map Prod.fst) =
        (((s.zip g).filter fun p => decide (p.1 = p.2)).map Prod.snd) := by
      refine List.map_congr_left fun q hq => ?_
      exact of_decide_eq_true (List.mem_filter.mp hq).2
    have h2 := h1.map Prod.snd
    rw [← hmapeq] at h2
    rwa [List.map_snd_zip _ _ (ge_of_eq h)] at h2
  have hle : ((((s.zip g).filter fun p => decide (p.1 = p.2)).map Prod.fst : List α) :
      Multiset α) ≤ (s : Multiset α) ∩ (g : Multiset α) :=
    Multiset.le_inter (Multiset.coe_le.mpr hsubs.subperm) (Multiset.coe_le.mpr hsubg.subperm)
  have hcard := Multiset.card_le_card hle
  rw [hlen, totalMatches_eq_card_inter]
  simpa using hcard

lemma blackCount_comm : ∀ (s g : List α), blackCount s g = blackCount g s
  | [], g => by cases g <;> rfl
  | _ :: _, [] => rfl
  | a :: s, b :: g => by
    have ih := blackCount_comm s g
    simp only [blackCount, List.zip_cons_cons, List.countP_cons] at ih ⊢
    rw [ih]
    by_cases hab : a = b
    · simp [hab]
    · simp [hab, Ne.symm hab]

lemma blackCount_le_left (s g : List α) : blackCount s g ≤ s.length := by
  calc blackCount s g ≤ (s.zip g).length := List.countP_le_length _
  _ ≤ s.length := by rw [List.length_zip]; exact min_le_left _ _

lemma blackCount_eq_length_iff : ∀ (s g : List α), s.length = g.length →
    (blackCount s g = s.length ↔ g = s)
  | [], [], _ => by simp [blackCount]
  | [], _ :: _, h => absurd h (by simp)
  | _ :: _, [], h => absurd h (by simp)
  | a :: s, b :: g, h => by
    have hlen : s.length = g.length := by simpa using h
    have ih := blackCount_eq_length_iff s g hlen
    have hcons : blackCount (a :: s) (b :: g) =
        blackCount s g + (if a = b then 1 else 0) := by
      simp [blackCount, List.zip_cons_cons, List.countP_cons]
    by_cases hab : a = b
    · subst hab
      rw [hcons, if_pos rfl, List.length_cons]
      constructor
      · intro hh
        rw [ih.mp (Nat.add_right_cancel hh)]
      · intro hh
        have hgs : g = s := by injection hh
        rw [ih.mpr hgs]
    · rw [hcons, if_neg hab, Nat.add_zero, List.length_cons]
      constructor
      · intro hh
        exact absurd hh (Nat.ne_of_lt (Nat.lt_succ_of_le (blackCount_le_left s g)))
      · intro hh
        have hba : b = a := by injection hh
        exact absurd hba.symm hab

lemma specExactMatches_eq_blackCount : ∀ (s g : List α), s.length = g.length →
    specExactMatches s g = blackCount s g
  | [], _, _ => by simp [specExactMatches, blackCount]
  | _ :: _, [], h => absurd h (by simp)
  | a :: s, b :: g, h => by
    have hlen : s.length = g.length := by simpa using h
    have ih := specExactMatches_eq_blackCount s g hlen
    have hspec : specExactMatches (a :: s) (b :: g) =
        specExactMatches s g + (if a = b then 1 else 0) := by
      simp [specExactMatches, List.length_cons, List.range_succ_eq_map,
        List.countP_cons, List.countP_map, Function.comp_def, List.getElem?_cons_succ,
        List.getElem?_cons_zero, Option.some.injEq]
    have hblack : blackCount (a :: s) (b :: g) =
        blackCount s g + (if a = b then 1 else 0) := by
      simp [blackCount, List.zip_cons_cons, List.countP_cons]
    rw [hspec, hblack, ih]

/-- C1: for equal-length sequences, `check_guess` returns black equal to the
number of indices where secret and guess agree and white equal to the sum,
over distinct colors of the guess, of the minimum of the two occurrence
counts, minus black; the spec's two concrete examples also hold. -/
theorem check_guess_spec (secret guess : List α) (h : secret.length = guess.length) :
    check_guess secret guess =
      .ok ((specExactMatches secret guess : Int),
        (specColorTotal secret guess : Int) - (specExactMatches secret guess : Int)) ∧
    check_guess ["A", "A", "B", "B"] ["A", "A", "A", "A"] = .ok (2, 0) ∧
    check_guess ["A", "B", "C", "D"] ["A", "C", "B", "X"] = .ok (1, 2) := by
  refine ⟨?_, by decide, by decide⟩
  have h1 := specExactMatches_eq_blackCount secret guess h
  have h2 : specColorTotal secret guess = totalMatches secret guess :=
    (totalMatches_eq_sum_toFinset secret guess).symm
  rw [check_guess, if_neg (by simp [h]), h1, h2]

/-- Witness for C1 at a concrete input with the length hypothesis discharged. -/
theorem check_guess_spec_witness :
    check_guess (α := String) ["A", "B"] ["B", "A"] =
      .ok ((specExactMatches ["A", "B"] ["B", "A"] : Int),
        (specColorTotal (α := String) ["A", "B"] ["B", "A"] : Int) -
          (specExactMatches ["A", "B"] ["B", "A"] : Int)) ∧
    check_guess ["A", "A", "B", "B"] ["A", "A", "A", "A"] = .ok (2, 0) ∧
    check_guess ["A", "B", "C", "D"] ["A", "C", "B", "X"] = .ok (1, 2) :=
  check_guess_spec ["A", "B"] ["B", "A"] rfl

/-- C2: for equal-length sequences, `check_guess` succeeds and its result
`(black, white)` satisfies `0 ≤ black`, `0 ≤ white` and
`black + white ≤ length`. -/
theorem check_guess_bounds (secret guess : List α) (h : secret.length = guess.length) :
    ∃ b w : Int, check_guess secret guess = .ok (b, w) ∧
      0 ≤ b ∧ 0 ≤ w ∧ b + w ≤ (secret.length : Int) := by
  have h1 := blackCount_le_totalMatches secret guess h
  have h2 := totalMatches_le_length secret guess
  refine ⟨(blackCount secret guess : Int),
    (totalMatches secret guess : Int) - (blackCount secret guess : Int), ?_, ?_, ?_, ?_⟩
  · rw [check_guess, if_neg (by simp [h])]
  · exact Int.natCast_nonneg _
  · omega
  · rw [h]; omega

/-- Witness for C2 at a concrete input with the length hypothesis discharged. -/
theorem check_guess_bounds_witness :
    ∃ b w : Int, check_guess (α := String) ["A", "B", "C", "D"] ["A", "C", "B", "X"] =
      .ok (b, w) ∧ 0 ≤ b ∧ 0 ≤ w ∧
      b + w ≤ ((["A", "B", "C", "D"] : List String).length : Int) :=
  check_guess_bounds ["A", "B", "C", "D"] ["A", "C", "B", "X"] rfl

/-- C9: scoring is symmetric in its two arguments on equal-length sequences,
even though the color total sums only over the distinct colors of the guess. -/
theorem check_guess_comm (secret guess : List α) (h : secret.length = guess.length) :
    check_guess secret guess = check_guess guess secret := by
  simp only [check_guess]
  rw [if_neg (by simp [h]), if_neg (by simp [h]),
    blackCount_comm secret guess, totalMatches_comm secret guess]

/-- Witness for C9 at a concrete input with the length hypothesis discharged. -/
theorem check_guess_comm_witness :
    check_guess (α := String) ["A", "A", "B", "B"] ["A", "A", "A", "A"] =
      check_guess ["A", "A", "A", "A"] ["A", "A", "B", "B"] :=
  check_guess_comm ["A", "A", "B", "B"] ["A", "A", "A", "A"] rfl

/-- C10: for equal-length sequences, the black count returned by `check_guess`
equals the common length exactly when the guess is identical to the secret. -/
theorem check_guess_black_eq_length_iff (secret guess : List α)
    (h : secret.length = guess.length) (b w : Int)
    (hok : check_guess secret guess = .ok (b, w)) :
    b = (secret.length : Int) ↔ guess = secret := by
  rw [check_guess, if_neg (by simp [h])] at hok
  simp only [Except.ok.injEq, Prod.mk.injEq] at hok
  obtain ⟨hb, _⟩ := hok
  rw [← hb, Nat.cast_inj]
  exact blackCount_eq_length_iff secret guess h

/-- Witness for C10 at a concrete input with both hypotheses discharged. -/
theorem check_guess_black_eq_length_iff_witness :
    (4 : Int) = ((["A", "B", "C", "D"] : List String).length : Int) ↔
      (["A", "B", "C", "D"] : List String) = ["A", "B", "C", "D"] :=
  check_guess_black_eq_length_iff ["A", "B", "C", "D"] ["A", "B", "C", "D"] rfl 4 0 (by decide)

lemma random_choice_ok (colors : List α) (r : Nat) (hc : colors ≠ []) :
    ∃ c, random_choice colors r = .ok c ∧ c ∈ colors := by
  have hlt : r % colors.length < colors.length :=
    Nat.mod_lt _ (List.length_pos.mpr hc)
  rw [random_choice, List.getElem?_eq_getElem hlt]
  exact ⟨_, rfl, List.getElem_mem _⟩

lemma generate_code_from_ok (colors : List α) (rand : Nat → Nat) (hc : colors ≠ []) :
    ∀ (n i : Nat), ∃ l, generate_code_from colors rand i n = .ok l ∧
      l.length = n ∧ ∀ x ∈ l, x ∈ colors
  | 0, _ => ⟨[], rfl, rfl, by simp⟩
  | n + 1, i => by
    obtain ⟨c, hc1, hc2⟩ := random_choice_ok colors (rand i) hc
    obtain ⟨l, hl1, hl2, hl3⟩ := generate_code_from_ok colors rand hc n (i + 1)
    refine ⟨c :: l, ?_, by simp [hl2], ?_⟩
    · simp only [generate_code_from]
      rw [hc1, hl1]
    · intro x hx
      rcases List.mem_cons.mp hx with hx | hx
      · rw [hx]; exact hc2
      · exact hl3 x hx

/-- C7: for `length ≥ 1` and a non-empty palette, `generate_code` returns a
sequence of exactly `length` elements, each a member of the palette. -/
theorem generate_code_valid (colors : List α) (n : Nat) (rand : Nat → Nat)
    (hn : 1 ≤ n) (hc : colors ≠ []) :
    ∃ code, generate_code colors n rand = .ok code ∧ code.length = n ∧
      ∀ x ∈ code, x ∈ colors :=
  generate_code_from_ok colors rand hc n 0

/-- Witness for C7 at the source's palette and code length. -/
theorem generate_code_valid_witness :
    ∃ code, generate_code COLORS 4 (fun i => i) = .ok code ∧ code.length = 4 ∧
      ∀ x ∈ code, x ∈ COLORS :=
  generate_code_valid COLORS 4 (fun i => i) (by decide) (by decide)

/-- C6 counterexample: with an empty palette and `length = 0` (so both
`length < 1` and an empty palette hold), `generate_code` returns the empty
code successfully instead of failing with any error condition. -/
theorem generate_code_no_validation_cex :
    generate_code ([] : List String) 0 (fun _ => 0) = .ok [] ∧
    ¬ ∃ e, generate_code ([] : List String) 0 (fun _ => 0) = .error e := by
  refine ⟨rfl, ?_⟩
  rintro ⟨e, he⟩
  rw [show generate_code ([] : List String) 0 (fun _ => 0) = .ok [] from rfl] at he
  exact Except.noConfusion he

/-- C6 amended: `generate_code` fails (with the `IndexError` raised by
`random.choice`) exactly when the palette is empty and `length ≥ 1`; it
performs no validation of its own, and for `length < 1` it returns the empty
code without error. -/
theorem generate_code_error_iff (colors : List α) (n : Nat) (rand : Nat → Nat) :
    (∃ e, generate_code colors n rand = .error e) ↔ colors = [] ∧ 1 ≤ n := by
  constructor
  · rintro ⟨e, he⟩
    by_cases hc : colors = []
    · subst hc
      refine ⟨rfl, ?_⟩
      by_contra hn
      have hn0 : n = 0 := by omega
      subst hn0
      rw [show generate_code ([] : List α) 0 rand = .ok [] from rfl] at he
      exact Except.noConfusion he
    · obtain ⟨l, hl, _, _⟩ := generate_code_from_ok colors rand hc n 0
      rw [generate_code, hl] at he
      exact Except.noConfusion he
  · rintro ⟨hc, hn⟩
    subst hc
    obtain ⟨m, rfl⟩ : ∃ m, n = m + 1 := ⟨n - 1, by omega⟩
    exact ⟨"IndexError: cannot choose from an empty sequence", rfl⟩

/-- C8: `format_feedback` succeeds exactly on valid counts, producing the
black markers first, then the white markers, then the empty markers, with
total length `length`; on invalid counts it raises the error; and
`format_feedback 2 1 4` is the spec's concrete example. -/
theorem format_feedback_spec (black white length : Int) :
    (0 ≤ black → 0 ≤ white → black + white ≤ length →
      format_feedback black white length =
        .ok (List.replicate black.toNat "black" ++ List.replicate white.toNat "white"
          ++ List.replicate (length - black - white).toNat "empty") ∧
      (List.replicate black.toNat "black" ++ List.replicate white.toNat "white"
        ++ List.replicate (length - black - white).toNat "empty").length = length.toNat) ∧
    (¬ (0 ≤ black ∧ 0 ≤ white ∧ black + white ≤ length) →
      ∃ e, format_feedback black white length = .error e) ∧
    format_feedback 2 1 4 = .ok ["black", "black", "white", "empty"] := by
  refine ⟨?_, ?_, by decide⟩
  · intro hb hw hs
    refine ⟨?_, ?_⟩
    · rw [format_feedback, if_neg (by omega)]
    · simp only [List.length_append, List.length_replicate]
      omega
  · intro hinv
    rw [format_feedback, if_pos (by omega)]
    exact ⟨_, rfl⟩

/-- Witness for C8 at the concrete input `(2, 1, 4)` with the three
precondition hypotheses discharged. -/
theorem format_feedback_spec_witness :
    format_feedback 2 1 4 =
      .ok (List.replicate (2 : Int).toNat "black" ++ List.replicate (1 : Int).toNat "white"
        ++ List.replicate ((4 : Int) - 2 - 1).toNat "empty") ∧
    (List.replicate (2 : Int).toNat "black" ++ List.replicate (1 : Int).toNat "white"
      ++ List.replicate ((4 : Int) - 2 - 1).toNat "empty").length = (4 : Int).toNat :=
  (format_feedback_spec 2 1 4).1 (by decide) (by decide) (by decide)

/-- C3: a click on a non-terminal session produces the win outcome exactly
when it completes the current row and the completed guess scores black equal
to `CODE_LENGTH`, at any attempt index; on a win the attempt index is not
advanced and the game becomes terminal. -/
theorem palette_click_won_iff (st : GameState) (color : String)
    (st' : GameState) (out : ClickOutcome)
    (hgo : st.game_over = false)
    (h : palette_click st color = .ok (st', out)) :
    (out = .won ↔ ∃ row newGuess w,
        st.rows[st.current_try]? = some row ∧
        fillFirst row.guess_state color = some newGuess ∧
        newGuess.contains none = false ∧
        check_guess st.secret newGuess.reduceOption = .ok ((CODE_LENGTH : Int), w)) ∧
    (out = .won → st'.current_try = st.current_try ∧ st'.game_over = true) := by
  rw [palette_click, hgo] at h
  simp only [Bool.false_eq_true, if_false] at h
  split at h
  · simp at h
  · rename_i row hrow
    split at h
    · rename_i hfill
      simp only [Except.ok.injEq, Prod.mk.injEq] at h
      obtain ⟨hst, hout⟩ := h
      subst hst; subst hout
      constructor
      · constructor
        · intro hcontra; cases hcontra
        · rintro ⟨row2, ng, w, hrow2, hfill2, _, _⟩
          rw [hrow] at hrow2
          injection hrow2 with hr
          subst hr
          rw [hfill] at hfill2
          exact Option.noConfusion hfill2
      · intro hcontra; cases hcontra
    · rename_i newGuess hfill
      split at h
      · rename_i hfull
        simp only [Except.ok.injEq, Prod.mk.injEq] at h
        obtain ⟨hst, hout⟩ := h
        subst hst; subst hout
        constructor
        · constructor
          · intro hcontra; cases hcontra
          · rintro ⟨row2, ng, w, hrow2, hfill2, hfull2, _⟩
            rw [hrow] at hrow2
            injection hrow2 with hr
            subst hr
            rw [hfill] at hfill2
            injection hfill2 with hg
            subst hg
            rw [hfull] at hfull2
            exact Bool.noConfusion hfull2
        · intro hcontra; cases hcontra
      · rename_i hfullne
        have hfull : newGuess.contains none = false := by
          simpa using hfullne
        split at h
        · rename_i e hcheck
          simp at h
        · rename_i b w hcheck
          split at h
          · rename_i e hfb
            simp at h
          · rename_i fb hfb
            split at h
            · rename_i hb
              simp only [Except.ok.injEq, Prod.mk.injEq] at h
              obtain ⟨hst, hout⟩ := h
              subst hst; subst hout
              refine ⟨⟨fun _ => ⟨row, newGuess, w, hrow, hfill, hfull, ?_⟩, fun _ => rfl⟩,
                fun _ => ⟨rfl, rfl⟩⟩
              rw [← hb]
              exact hcheck
            · rename_i hb
              split at h
              · rename_i hlast
                simp only [Except.ok.injEq, Prod.mk.injEq] at h
                obtain ⟨hst, hout⟩ := h
                subst hst; subst hout
                constructor
                · constructor
                  · intro hcontra; cases hcontra
                  · rintro ⟨row2, ng, w2, hrow2, hfill2, _, hcheck2⟩
                    rw [hrow] at hrow2
                    injection hrow2 with hr
                    subst hr
                    rw [hfill] at hfill2
                    injection hfill2 with hg
                    subst hg
                    rw [hcheck] at hcheck2
                    simp only [Except.ok.injEq, Prod.mk.injEq] at hcheck2
                    exact absurd hcheck2.1 hb
                · intro hcontra; cases hcontra
              · rename_i hlast
                simp only [Except.ok.injEq, Prod.mk.injEq] at h
                obtain ⟨hst, hout⟩ := h
                subst hst; subst hout
                constructor
                · constructor
                  · intro hcontra; cases hcontra
                  · rintro ⟨row2, ng, w2, hrow2, hfill2, _, hcheck2⟩
                    rw [hrow] at hrow2
                    injection hrow2 with hr
                    subst hr
                    rw [hfill] at hfill2
                    injection hfill2 with hg
                    subst hg
                    rw [hcheck] at hcheck2
                    simp only [Except.ok.injEq, Prod.mk.injEq] at hcheck2
                    exact absurd hcheck2.1 hb
                · intro hcontra; cases hcontra

/-- Witness for C3: the winning click on the concrete session `winBefore`,
with both hypotheses discharged. -/
theorem palette_click_won_iff_witness :
    (ClickOutcome.won = ClickOutcome.won ↔ ∃ row newGuess w,
        winBefore.rows[winBefore.current_try]? = some row ∧
        fillFirst row.guess_state "#38ffff" = some newGuess ∧
        newGuess.contains none = false ∧
        check_guess winBefore.secret newGuess.reduceOption = .ok ((CODE_LENGTH : Int), w)) ∧
    (ClickOutcome.won = ClickOutcome.won →
      winAfter.current_try = winBefore.current_try ∧ winAfter.game_over = true) :=
  palette_click_won_iff winBefore "#38ffff" winAfter .won rfl (by decide)

/-- C4: a click on a non-terminal session with a legal attempt index produces
the loss outcome exactly when it completes the current row, the completed
guess does not score black = `CODE_LENGTH`, and the current attempt is the
last one (index `MAX_TRIES - 1`); the losing submission advances the index to
`MAX_TRIES` and makes the game terminal. -/
theorem palette_click_lost_iff (st : GameState) (color : String)
    (st' : GameState) (out : ClickOutcome)
    (hgo : st.game_over = false)
    (hct : st.current_try < MAX_TRIES)
    (h : palette_click st color = .ok (st', out)) :
    (out = .lost ↔ ∃ row newGuess b w,
        st.rows[st.current_try]? = some row ∧
        fillFirst row.guess_state color = some newGuess ∧
        newGuess.contains none = false ∧
        check_guess st.secret newGuess.reduceOption = .ok (b, w) ∧
        b ≠ (CODE_LENGTH : Int) ∧
        st.current_try = MAX_TRIES - 1) ∧
    (out = .lost → st'.game_over = true ∧ st'.current_try = MAX_TRIES) := by
  rw [palette_click, hgo] at h
  simp only [Bool.false_eq_true, if_false] at h
  split at h
  · simp at h
  · rename_i row hrow
    split at h
    · rename_i hfill
      simp only [Except.ok.injEq, Prod.mk.injEq] at h
      obtain ⟨hst, hout⟩ := h
      subst hst; subst hout
      constructor
      · constructor
        · intro hcontra; cases hcontra
        · rintro ⟨row2, ng, b, w, hrow2, hfill2, _, _, _, _⟩
          rw [hrow] at hrow2
          injection hrow2 with hr
          subst hr
          rw [hfill] at hfill2
          exact Option.noConfusion hfill2
      · intro hcontra; cases hcontra
    · rename_i newGuess hfill
      split at h
      · rename_i hfullT
        simp only [Except.ok.injEq, Prod.mk.injEq] at h
        obtain ⟨hst, hout⟩ := h
        subst hst; subst hout
        constructor
        · constructor
          · intro hcontra; cases hcontra
          · rintro ⟨row2, ng, b, w, hrow2, hfill2, hfull2, _, _, _⟩
            rw [hrow] at hrow2
            injection hrow2 with hr
            subst hr
            rw [hfill] at hfill2
            injection hfill2 with hg
            subst hg
            rw [hfullT] at hfull2
            exact Bool.noConfusion hfull2
        · intro hcontra; cases hcontra
      · rename_i hfullne
        have hfull : newGuess.contains none = false := by
          simpa using hfullne
        split at h
        · rename_i e hcheck
          simp at h
        · rename_i b w hcheck
          split at h
          · rename_i e hfb
            simp at h
          · rename_i fb hfb
            split at h
            · rename_i hb
              simp only [Except.ok.injEq, Prod.mk.injEq] at h
              obtain ⟨hst, hout⟩ := h
              subst hst; subst hout
              constructor
              · constructor
                · intro hcontra; cases hcontra
                · rintro ⟨row2, ng, b2, w2, hrow2, hfill2, _, hcheck2, hb2, _⟩
                  rw [hrow] at hrow2
                  injection hrow2 with hr
                  subst hr
                  rw [hfill] at hfill2
                  injection hfill2 with hg
                  subst hg
                  rw [hcheck] at hcheck2
                  simp only [Except.ok.injEq, Prod.mk.injEq] at hcheck2
                  rw [← hcheck2.1, hb] at hb2
                  exact (hb2 rfl).elim
              · intro hcontra; cases hcontra
            · rename_i hb
              split at h
              · rename_i hlast
                simp only [Except.ok.injEq, Prod.mk.injEq] at h
                obtain ⟨hst, hout⟩ := h
                subst hst; subst hout
                constructor
                · refine ⟨fun _ => ⟨row, newGuess, b, w, hrow, hfill, hfull, hcheck, hb, ?_⟩,
                    fun _ => rfl⟩
                  omega
                · intro _
                  refine ⟨rfl, ?_⟩
                  show st.current_try + 1 = MAX_TRIES
                  omega
              · rename_i hlast
                simp only [Except.ok.injEq, Prod.mk.injEq] at h
                obtain ⟨hst, hout⟩ := h
                subst hst; subst hout
                constructor
                · constructor
                  · intro hcontra; cases hcontra
                  · rintro ⟨row2, ng, b2, w2, _, _, _, _, _, hlastct⟩
                    exact absurd hlastct (by omega)
                · intro hcontra; cases hcontra

/-- Witness for C4: the losing click on the concrete session `loseBefore`,
with all three hypotheses discharged. -/
theorem palette_click_lost_iff_witness :
    (ClickOutcome.lost = ClickOutcome.lost ↔ ∃ row newGuess b w,
        loseBefore.rows[loseBefore.current_try]? = some row ∧
        fillFirst row.guess_state "#ff6a00" = some newGuess ∧
        newGuess.contains none = false ∧
        check_guess loseBefore.secret newGuess.reduceOption = .ok (b, w) ∧
        b ≠ (CODE_LENGTH : Int) ∧
        loseBefore.current_try = MAX_TRIES - 1) ∧
    (ClickOutcome.lost = ClickOutcome.lost →
      loseAfter.game_over = true ∧ loseAfter.current_try = MAX_TRIES) :=
  palette_click_lost_iff loseBefore "#ff6a00" loseAfter .lost rfl (by decide) (by decide)

/-- C5 counterexample: a palette click on a concrete terminal session does not
fail with any error: the source silently ignores it, so no `GameOver`-style
rejection is signalled to the caller. -/
theorem palette_click_terminal_cex :
    ¬ ∃ e, palette_click
      { secret := ["#38ffff", "#38ffff", "#38ffff", "#38ffff"], current_try := 0,
        rows := [blankRow], game_over := true } "#ff6a00" = .error e := by
  rintro ⟨e, he⟩
  simp [palette_click] at he

/-- C5 amended: a palette click after the session is terminal is silently
ignored: the call succeeds, returns the session state completely unchanged
(no attempt row or other field is mutated), and raises no error. -/
theorem palette_click_terminal_noop (st : GameState) (color : String)
    (h : st.game_over = true) :
    palette_click st color = .ok (st, .contIn) := by
  rw [palette_click, h]
  simp

/-- Witness for C5's amended theorem at a concrete terminal session. -/
theorem palette_click_terminal_noop_witness :
    palette_click
      { secret := ["#38ffff", "#38ffff", "#38ffff", "#38ffff"], current_try := 3,
        rows := [blankRow], game_over := true } "#ccf300" =
      .ok ({ secret := ["#38ffff", "#38ffff", "#38ffff", "#38ffff"], current_try := 3,
             rows := [blankRow], game_over := true }, .contIn) :=
  palette_click_terminal_noop _ _ rfl

example : check_guess ["A", "A", "B", "B"] ["A", "A", "A", "A"] = .ok (2, 0) := by decide

example : check_guess ["A", "B", "C", "D"] ["A", "C", "B", "X"] = .ok (1, 2) := by decide

example : format_feedback 2 1 4 = .ok ["black", "black", "white", "empty"] := by decide

end Mastermind
